import Mathlib

/-!
Verification of the retry/backoff core of the SnitchDNS HTTP client
(internal/client/client.go) against its specification.

The Go code is embedded shallowly:

* `executeRequest` mirrors the single-attempt executor: it is given the
  network's behaviour for the attempt (a `TransportEvent`) and produces the
  triple (respBody, statusCode, err) that the Go function returns.
* `doRequestWithContext` mirrors the retry orchestrator: the `for attempt :=
  0; attempt <= c.MaxRetries; attempt++` loop becomes the structurally
  recursive `loopFrom`, with the number of remaining loop iterations as the
  recursion measure, exactly `(MaxRetries + 1).toNat` at entry.  The
  environment `CallEnv` supplies, per attempt index, the transport outcome,
  whether ctx.Done fires during the backoff select, and the value of
  ctx.Err() consulted after a failed attempt.  The produced `CallTrace`
  records the final result together with the number of executor invocations,
  the number of completed backoff waits, and the body bytes handed to each
  attempt.
* `calculateBackoff` / `secureRandomFloat` mirror the backoff math; the Go
  float64 arithmetic is idealized over the rationals.
* `parseRecordNested` mirrors the second-pass decoding of the double-encoded
  `data` / `conditional_data` record fields, identical in CreateRecord,
  GetRecord and UpdateRecord; Go's json.Unmarshal is a parameter.
-/

deriving instance DecidableEq for Except

namespace SnitchDNS

/-- Response body bytes (Go `[]byte` modelled as a list of byte values). -/
abbrev Bytes := List Nat

/-- An error recorded in the orchestrator's `lastErr` variable: either the
5xx-style status error built at line 101 of client.go, or an error returned
by `executeRequest`. -/
inductive AttemptError where
  | apiStatus (status : Int) (body : Bytes)
  | transport (msg : String)
  deriving DecidableEq, Repr

/-- The errors `doRequestWithContext` can return to its caller. -/
inductive ClientError where
  /-- json.Marshal of the request body failed (client.go line 62). -/
  | marshalError (msg : String)
  /-- ctx.Err() was returned (client.go lines 76 and 84). -/
  | ctxCanceled
  /-- terminal 4xx error (client.go line 97), carrying status and raw body. -/
  | apiStatus (status : Int) (body : Bytes)
  /-- the final wrap at line 104: "request failed after %d retries: %w"; the
  wrapped `lastErr` is `none` when no attempt ever recorded a failure. -/
  | retriesExhausted (maxRetries : Int) (last : Option AttemptError)
  deriving DecidableEq, Repr

/-- What the network does during one invocation of `executeRequest`. -/
inductive TransportEvent where
  /-- http.NewRequestWithContext fails (client.go line 115). -/
  | newRequestFail (msg : String)
  /-- HTTPClient.Do fails (client.go line 128). -/
  | doFail (msg : String)
  /-- Do succeeds with the given status code; `body` is what io.ReadAll
  yields (the full body when `readErr = none`, the bytes read so far when
  the read fails mid-stream with `readErr = some msg`). -/
  | response (status : Int) (body : Bytes) (readErr : Option String)
  deriving DecidableEq, Repr

/-- The (respBody, statusCode, err) triple returned by `executeRequest`. -/
structure ExecOut where
  respBody : Bytes
  statusCode : Int
  err : Option String
  deriving DecidableEq, Repr

/-- Shallow embedding of `executeRequest` (client.go lines 108-147): one
attempt.  Request construction or transport failures yield a zero status and
a wrapped error; on transport completion the whole body is read, and a read
failure still reports the status code alongside the wrapped read error. -/
def executeRequest : TransportEvent → ExecOut
  | .newRequestFail msg => ⟨[], 0, some ("failed to create request: " ++ msg)⟩
  | .doFail msg => ⟨[], 0, some ("failed to execute request: " ++ msg)⟩
  | .response status body (some msg) =>
      ⟨body, status, some ("failed to read response body: " ++ msg)⟩
  | .response status body none => ⟨body, status, none⟩

/-- What the loop body does with one attempt's outcome: return from the
function, or record `lastErr` and continue with the next attempt. -/
inductive StepOutcome where
  | ret (r : Except ClientError Bytes)
  | cont (e : AttemptError)
  deriving DecidableEq, Repr

/-- Whether a step outcome continues the loop (a transient failure). -/
def StepOutcome.isCont : StepOutcome → Bool
  | .cont _ => true
  | .ret _ => false

/-- The recorded failure of a continuing step, if any. -/
def StepOutcome.contVal : StepOutcome → Option AttemptError
  | .cont e => some e
  | .ret _ => none

/-- Shallow embedding of the classification in the loop body
(client.go lines 81-101): a non-nil executor error returns ctx.Err() when
the context is done and is otherwise recorded as transient; otherwise a
status in [200,300) returns the body, a status in [400,500) returns a
terminal error, and every other status is recorded as transient. -/
def handleExec (ctxErrSet : Bool) (out : ExecOut) : StepOutcome :=
  match out.err with
  | some msg =>
      if ctxErrSet then .ret (.error .ctxCanceled)
      else .cont (.transport msg)
  | none =>
      if 200 ≤ out.statusCode ∧ out.statusCode < 300 then
        .ret (.ok out.respBody)
      else if 400 ≤ out.statusCode ∧ out.statusCode < 500 then
        .ret (.error (.apiStatus out.statusCode out.respBody))
      else
        .cont (.apiStatus out.statusCode out.respBody)

/-- The environment of one logical call: per attempt index, the transport
behaviour, whether ctx.Done fires during the backoff select before that
attempt, and whether ctx.Err() is non-nil when checked after the attempt
failed. -/
structure CallEnv where
  exec : Nat → TransportEvent
  ctxFiresDuringWait : Nat → Bool
  ctxErrAfter : Nat → Bool

/-- The loop body's outcome at attempt index `i`. -/
def stepAt (env : CallEnv) (i : Nat) : StepOutcome :=
  handleExec (env.ctxErrAfter i) (executeRequest (env.exec i))

/-- Observable trace of one call through the orchestrator: the final result,
how many executor invocations (network attempts) happened, how many backoff
waits completed, and the body bytes handed to each attempt in order. -/
structure CallTrace where
  result : Except ClientError Bytes
  attempts : Nat
  waits : Nat
  sent : List (Option Bytes)
  deriving DecidableEq, Repr

/-- Shallow embedding of the retry loop of `doRequestWithContext`
(client.go lines 67-104).  `a` is the Go `attempt` counter, `remaining` the
number of loop iterations still permitted by `attempt <= c.MaxRetries`,
`lastErr` the recorded last transient failure.  For `a > 0` a backoff wait
precedes the attempt and ctx.Done firing during it returns ctx.Err();
otherwise the attempt runs and its outcome either returns or continues. -/
def loopFrom (env : CallEnv) (m : Int) (jsonData : Option Bytes) :
    Nat → Nat → Option AttemptError → Nat → Nat → List (Option Bytes) → CallTrace
  | _, 0, lastErr, att, w, sent =>
      ⟨.error (.retriesExhausted m lastErr), att, w, sent⟩
  | a, r + 1, _lastErr, att, w, sent =>
      if 0 < a ∧ env.ctxFiresDuringWait a = true then
        ⟨.error .ctxCanceled, att, w, sent⟩
      else
        let w' := if 0 < a then w + 1 else w
        match stepAt env a with
        | .ret res => ⟨res, att + 1, w', sent ++ [jsonData]⟩
        | .cont e =>
            loopFrom env m jsonData (a + 1) r (some e) (att + 1) w' (sent ++ [jsonData])

/-- Outcome of the body-marshalling step before the loop (client.go lines
59-64): no body gives nil bytes, a body gives json.Marshal's result. -/
def marshalOf : Option (Except String Bytes) → Except String (Option Bytes)
  | none => .ok none
  | some (.ok b) => .ok (some b)
  | some (.error e) => .error e

/-- Shallow embedding of `doRequestWithContext` (client.go lines 55-105).
`mi` describes the request body: `none` for no body, otherwise the result
json.Marshal produces for it.  A marshal failure returns immediately with
zero attempts; otherwise the serialized bytes are fixed once and the loop
runs with `(m + 1).toNat` permitted iterations. -/
def doRequestWithContext (env : CallEnv) (m : Int)
    (mi : Option (Except String Bytes)) : CallTrace :=
  match marshalOf mi with
  | .error e => ⟨.error (.marshalError ("failed to marshal request body: " ++ e)), 0, 0, []⟩
  | .ok jsonData => loopFrom env m jsonData 0 (m + 1).toNat none 0 0 []

/-- Shallow embedding of `calculateBackoff` (client.go lines 150-165) with
the float64 arithmetic idealized over ℚ: exponential backoff
wmin * 2^(attempt-1), capped at wmax, with ±25% jitter driven by the random
fraction `r`. -/
def calculateBackoff (wmin wmax : ℚ) (r : ℚ) (attempt : Nat) : ℚ :=
  let backoff := wmin * 2 ^ (attempt - 1)
  let capped := if backoff > wmax then wmax else backoff
  let jitter := capped * (1 / 4)
  capped - jitter + r * jitter * 2

/-- Shallow embedding of `secureRandomFloat` (client.go lines 168-177) on
the non-degraded path: the eight random bytes, read as a big-endian word
`u < 2^64`, are normalized to u / 2^64. -/
def secureRandomFloat (u : Nat) : ℚ :=
  (u : ℚ) / 2 ^ 64

/-- The empty-object sentinel (client.go line 18). -/
def emptyJSON : String := "\x7b\x7d"

/-- Model of a decoded JSON object (`map[string]interface` content is
opaque; only emptiness and identity matter here). -/
abbrev JMap := List (String × String)

/-- The two double-encoded string fields of a decoded `Record`. -/
structure RecordRaw where
  dataRaw : String
  conditionalDataRaw : String
  deriving DecidableEq, Repr

/-- A `Record` after the second-pass decode: the raw strings plus the parsed
maps, `none` meaning the Go field was left nil. -/
structure RecordParsed where
  dataRaw : String
  conditionalDataRaw : String
  data : Option JMap
  conditionalData : Option JMap
  deriving DecidableEq, Repr

/-- The second-pass decode of the `data` field (client.go lines 331-336,
360-365, 389-394): it runs whenever `dataRaw` is non-empty.  `unmarshal`
stands for json.Unmarshal into a map; its `Option JMap` result captures that
Go may leave the destination map nil. -/
def parseDataField (unmarshal : String → Except String (Option JMap))
    (dataRaw : String) : Except String (Option JMap) :=
  if dataRaw ≠ "" then
    match unmarshal dataRaw with
    | .error e => .error ("failed to parse data field: " ++ e)
    | .ok v => .ok v
  else .ok none

/-- The second-pass decode of the `conditional_data` field (client.go lines
338-343, 367-372, 396-401): it runs only when `conditionalDataRaw` is
non-empty and differs from the `emptyJSON` sentinel. -/
def parseConditionalDataField (unmarshal : String → Except String (Option JMap))
    (condRaw : String) : Except String (Option JMap) :=
  if condRaw ≠ "" ∧ condRaw ≠ emptyJSON then
    match unmarshal condRaw with
    | .error e => .error ("failed to parse conditional_data field: " ++ e)
    | .ok v => .ok v
  else .ok none

/-- Shallow embedding of the second-pass decode of the nested JSON string
fields, as written identically in CreateRecord (client.go lines 331-343),
GetRecord (lines 360-372) and UpdateRecord (lines 389-401): first the data
pass, then the conditional-data pass, each failure propagating. -/
def parseRecordNested (unmarshal : String → Except String (Option JMap))
    (r : RecordRaw) : Except String RecordParsed :=
  match parseDataField unmarshal r.dataRaw with
  | .error e => .error e
  | .ok dataField =>
    match parseConditionalDataField unmarshal r.conditionalDataRaw with
    | .error e => .error e
    | .ok condField => .ok ⟨r.dataRaw, r.conditionalDataRaw, dataField, condField⟩

/-- Model of Go json.Unmarshal into a map on the one input the sentinel
analysis needs: decoding the empty JSON object succeeds and, per the
json package's documented behaviour, allocates a fresh (empty, non-nil)
map. -/
def goUnmarshalEmptyObj : String → Except String (Option JMap) := fun s =>
  if s = emptyJSON then .ok (some []) else .error "unmodelled input"

/-- Running the loop when every permitted attempt is a transient failure and
no cancellation fires: all `r` remaining attempts are performed, each gets
the same body bytes, a wait precedes every attempt of positive index, and
the final error wraps the last attempt's recorded failure. -/
theorem loopFrom_exhaust (env : CallEnv) (m : Int) (d : Option Bytes) :
    ∀ (r a : Nat) (lastErr : Option AttemptError) (att w : Nat) (sent : List (Option Bytes)),
    (∀ j, j < r → (stepAt env (a + j)).isCont = true ∧ env.ctxFiresDuringWait (a + j) = false) →
    loopFrom env m d a r lastErr att w sent =
      ⟨.error (.retriesExhausted m
          (if r = 0 then lastErr else (stepAt env (a + r - 1)).contVal)),
       att + r, w + (if a = 0 then r - 1 else r), sent ++ List.replicate r d⟩ := by
  intro r
  induction r with
  | zero =>
    intro a lastErr att w sent _
    simp [loopFrom]
  | succ r ih =>
    intro a lastErr att w sent h
    obtain ⟨hc, hf⟩ := h 0 (Nat.succ_pos r)
    rw [Nat.add_zero] at hc hf
    rcases he : stepAt env a with res | e
    · rw [he] at hc
      simp [StepOutcome.isCont] at hc
    · rw [loopFrom, if_neg (by simp [hf])]
      simp only [he]
      rw [ih (a + 1) (some e) (att + 1) (if 0 < a then w + 1 else w) (sent ++ [d])
        (by
          intro j hj
          have := h (j + 1) (by omega)
          rwa [show a + (j + 1) = a + 1 + j by omega] at this)]
      have hlast : (if r = 0 then some e else (stepAt env (a + 1 + r - 1)).contVal)
          = (if r + 1 = 0 then lastErr else (stepAt env (a + (r + 1) - 1)).contVal) := by
        rcases r with _ | r
        · simp [he, StepOutcome.contVal]
        · rw [show a + 1 + (r + 1) - 1 = a + (r + 1 + 1) - 1 from by omega]
          simp
      have hw : (if 0 < a then w + 1 else w) + (if a + 1 = 0 then r - 1 else r)
          = w + (if a = 0 then r + 1 - 1 else r + 1) := by
        rcases Nat.eq_zero_or_pos a with ha | ha
        · subst ha; simp
        · rw [if_pos ha, if_neg (Nat.succ_ne_zero a), if_neg (by omega)]
          omega
      have hsent : (sent ++ [d]) ++ List.replicate r d = sent ++ List.replicate (r + 1) d := by
        simp [List.replicate_succ]
      rw [hlast, hw, hsent, show att + 1 + r = att + (r + 1) from by omega]

/-- Running the loop when the first `k` attempts are transient failures
without cancellation and attempt `k` (0-indexed) returns from the function:
exactly `k + 1` attempts are performed and the loop yields that attempt's
result. -/
theorem loopFrom_ret (env : CallEnv) (m : Int) (d : Option Bytes) :
    ∀ (k a r : Nat) (lastErr : Option AttemptError) (att w : Nat)
      (sent : List (Option Bytes)) (res : Except ClientError Bytes),
    (∀ j, j < k → (stepAt env (a + j)).isCont = true ∧ env.ctxFiresDuringWait (a + j) = false) →
    env.ctxFiresDuringWait (a + k) = false →
    stepAt env (a + k) = .ret res →
    loopFrom env m d a (k + r + 1) lastErr att w sent =
      ⟨res, att + k + 1, w + (if a = 0 then k else k + 1),
       sent ++ List.replicate (k + 1) d⟩ := by
  intro k
  induction k with
  | zero =>
    intro a r lastErr att w sent res _ hf hret
    rw [Nat.add_zero] at hf hret
    rw [loopFrom, if_neg (by simp [hf])]
    simp only [hret]
    rcases a with _ | a
    · simp [List.replicate]
    · simp [List.replicate]
  | succ k ih =>
    intro a r lastErr att w sent res h hf hret
    obtain ⟨hc, hf0⟩ := h 0 (Nat.succ_pos k)
    rw [Nat.add_zero] at hc hf0
    rcases he : stepAt env a with res0 | e
    · rw [he] at hc
      simp [StepOutcome.isCont] at hc
    · rw [show k + 1 + r + 1 = k + (r + 1) + 1 by omega, loopFrom, if_neg (by simp [hf0])]
      simp only [he]
      rw [show k + (r + 1) = k + r + 1 by omega]
      rw [ih (a + 1) r (some e) (att + 1) (if 0 < a then w + 1 else w) (sent ++ [d]) res
        (by
          intro j hj
          have := h (j + 1) (by omega)
          rwa [show a + (j + 1) = a + 1 + j by omega] at this)
        (by rwa [show a + 1 + k = a + (k + 1) by omega])
        (by rwa [show a + 1 + k = a + (k + 1) by omega])]
      have hw : (if 0 < a then w + 1 else w) + (if a + 1 = 0 then k else k + 1)
          = w + (if a = 0 then k + 1 else k + 1 + 1) := by
        rcases Nat.eq_zero_or_pos a with ha | ha
        · subst ha; simp
        · rw [if_pos ha, if_neg (Nat.succ_ne_zero a), if_neg (by omega)]
          omega
      have hsent : (sent ++ [d]) ++ List.replicate (k + 1) d
          = sent ++ List.replicate (k + 1 + 1) d := by
        simp [List.replicate_succ]
      rw [hw, hsent, show att + 1 + k + 1 = att + (k + 1) + 1 from by omega]

/-- Running the loop when the first `k` attempts are transient failures
without cancellation and ctx.Done fires during the backoff wait before
attempt `k` (0-indexed, necessarily of positive index): exactly `k` attempts
were performed, the wait before attempt `k` never completes, and the loop
yields the cancellation error. -/
theorem loopFrom_fire (env : CallEnv) (m : Int) (d : Option Bytes) :
    ∀ (k a r : Nat) (lastErr : Option AttemptError) (att w : Nat)
      (sent : List (Option Bytes)),
    (∀ j, j < k → (stepAt env (a + j)).isCont = true ∧ env.ctxFiresDuringWait (a + j) = false) →
    0 < a + k →
    env.ctxFiresDuringWait (a + k) = true →
    loopFrom env m d a (k + r + 1) lastErr att w sent =
      ⟨.error .ctxCanceled, att + k, w + (if a = 0 then k - 1 else k),
       sent ++ List.replicate k d⟩ := by
  intro k
  induction k with
  | zero =>
    intro a r lastErr att w sent _ hpos hf
    rw [Nat.add_zero] at hpos hf
    rw [loopFrom]
    simp [hpos, hf]
  | succ k ih =>
    intro a r lastErr att w sent h hpos hf
    obtain ⟨hc, hf0⟩ := h 0 (Nat.succ_pos k)
    rw [Nat.add_zero] at hc hf0
    rcases he : stepAt env a with res0 | e
    · rw [he] at hc
      simp [StepOutcome.isCont] at hc
    · rw [show k + 1 + r + 1 = k + (r + 1) + 1 by omega, loopFrom, if_neg (by simp [hf0])]
      simp only [he]
      rw [show k + (r + 1) = k + r + 1 by omega]
      rw [ih (a + 1) r (some e) (att + 1) (if 0 < a then w + 1 else w) (sent ++ [d])
        (by
          intro j hj
          have := h (j + 1) (by omega)
          rwa [show a + (j + 1) = a + 1 + j by omega] at this)
        (by omega)
        (by rwa [show a + 1 + k = a + (k + 1) by omega])]
      have hw : (if 0 < a then w + 1 else w) + (if a + 1 = 0 then k - 1 else k)
          = w + (if a = 0 then k + 1 - 1 else k + 1) := by
        rcases Nat.eq_zero_or_pos a with ha | ha
        · subst ha; simp
        · rw [if_pos ha, if_neg (Nat.succ_ne_zero a), if_neg (by omega)]
          omega
      have hsent : (sent ++ [d]) ++ List.replicate k d
          = sent ++ List.replicate (k + 1) d := by
        simp [List.replicate_succ]
      rw [hw, hsent, show att + 1 + k = att + (k + 1) from by omega]

/-- Whatever the environment does, every body the loop hands to an attempt
is the one serialized before the loop. -/
theorem loopFrom_sent (env : CallEnv) (m : Int) (d : Option Bytes) :
    ∀ (r a : Nat) (lastErr : Option AttemptError) (att w : Nat)
      (sent : List (Option Bytes)),
    ∀ x ∈ (loopFrom env m d a r lastErr att w sent).sent, x ∈ sent ∨ x = d := by
  intro r
  induction r with
  | zero =>
    intro a lastErr att w sent x hx
    simp only [loopFrom] at hx
    exact Or.inl hx
  | succ r ih =>
    intro a lastErr att w sent x hx
    rw [loopFrom] at hx
    by_cases hfire : 0 < a ∧ env.ctxFiresDuringWait a = true
    · rw [if_pos hfire] at hx
      exact Or.inl hx
    · rw [if_neg hfire] at hx
      rcases he : stepAt env a with res | e <;> rw [he] at hx
      · simp only at hx
        rcases List.mem_append.mp hx with h | h
        · exact Or.inl h
        · exact Or.inr (List.mem_singleton.mp h)
      · simp only at hx
        rcases ih (a + 1) (some e) (att + 1) _ (sent ++ [d]) x hx with h | h
        · rcases List.mem_append.mp h with h | h
          · exact Or.inl h
          · exact Or.inr (List.mem_singleton.mp h)
        · exact Or.inr h

/-- When the body marshals successfully, the call is the loop started at
attempt 0 with the serialized bytes and the `(MaxRetries + 1)` budget. -/
theorem doRequest_ok (env : CallEnv) (m : Int) (mi : Option (Except String Bytes))
    (d : Option Bytes) (hm : marshalOf mi = .ok d) :
    doRequestWithContext env m mi = loopFrom env m d 0 (m + 1).toNat none 0 0 [] := by
  unfold doRequestWithContext
  rw [hm]

/-- C1: with MaxRetries ≥ 0, if every one of the MaxRetries + 1 attempts
yields a transient failure (the loop body records it and continues) and no
cancellation fires, then exactly MaxRetries + 1 attempts are performed and
the call returns the retry-exhausted error wrapping the last attempt's
recorded transient failure. -/
theorem retry_exhausted_after_all_transient (env : CallEnv) (m : Int)
    (mi : Option (Except String Bytes)) (d : Option Bytes)
    (hm : marshalOf mi = .ok d) (hm0 : 0 ≤ m)
    (hcont : ∀ j : Nat, (j : Int) ≤ m → (stepAt env j).isCont = true)
    (hfire : ∀ j : Nat, (j : Int) ≤ m → env.ctxFiresDuringWait j = false) :
    ∃ e, stepAt env m.toNat = .cont e ∧
      doRequestWithContext env m mi =
        ⟨.error (.retriesExhausted m (some e)), m.toNat + 1, m.toNat,
         List.replicate (m.toNat + 1) d⟩ := by
  have hc := hcont m.toNat (by omega)
  rcases he : stepAt env m.toNat with res | e
  · rw [he] at hc
    simp [StepOutcome.isCont] at hc
  · refine ⟨e, rfl, ?_⟩
    rw [doRequest_ok env m mi d hm, show (m + 1).toNat = m.toNat + 1 from by omega]
    rw [loopFrom_exhaust env m d (m.toNat + 1) 0 none 0 0 []
      (by
        intro j hj
        rw [Nat.zero_add]
        exact ⟨hcont j (by omega), hfire j (by omega)⟩)]
    simp [he, StepOutcome.contVal]

/-- Witness for C1: four attempts that all return 503 give four attempts and
the retry-exhausted error wrapping the last 503 failure. -/
theorem retry_exhausted_after_all_transient_witness :
    ∃ e, stepAt ⟨fun _ => .response 503 [] none, fun _ => false, fun _ => false⟩
        (Int.toNat 3) = .cont e ∧
      doRequestWithContext
          ⟨fun _ => .response 503 [] none, fun _ => false, fun _ => false⟩ 3 none =
        ⟨.error (.retriesExhausted 3 (some e)), Int.toNat 3 + 1, Int.toNat 3,
         List.replicate (Int.toNat 3 + 1) none⟩ :=
  retry_exhausted_after_all_transient _ 3 none none rfl (by decide)
    (fun _ _ => rfl) (fun _ _ => rfl)

/-- C2: if the first k attempts are transient failures without cancellation
(k ≤ MaxRetries) and attempt k + 1 completes with a 2xx status, the call
returns that attempt's body and exactly k + 1 attempts are performed. -/
theorem success_after_k_transient (env : CallEnv) (m : Int)
    (mi : Option (Except String Bytes)) (d : Option Bytes)
    (hm : marshalOf mi = .ok d) (k : Nat) (hk : (k : Int) ≤ m)
    (hcont : ∀ j, j < k → (stepAt env j).isCont = true ∧ env.ctxFiresDuringWait j = false)
    (hfire : env.ctxFiresDuringWait k = false)
    (s : Int) (body : Bytes) (hev : env.exec k = .response s body none)
    (hs : 200 ≤ s ∧ s < 300) :
    doRequestWithContext env m mi = ⟨.ok body, k + 1, k, List.replicate (k + 1) d⟩ := by
  have hstep : stepAt env k = .ret (.ok body) := by
    simp only [stepAt, hev, executeRequest, handleExec]
    rw [if_pos hs]
  rw [doRequest_ok env m mi d hm,
    show (m + 1).toNat = k + ((m + 1).toNat - k - 1) + 1 from by omega]
  rw [loopFrom_ret env m d k 0 ((m + 1).toNat - k - 1) none 0 0 [] (.ok body)
    (by intro j hj; rw [Nat.zero_add]; exact hcont j hj)
    (by rw [Nat.zero_add]; exact hfire)
    (by rw [Nat.zero_add]; exact hstep)]
  simp

/-- Witness for C2: two 503 attempts followed by a 200 attempt give exactly
three attempts and the 200 body. -/
theorem success_after_k_transient_witness :
    doRequestWithContext
        ⟨fun i => if i < 2 then .response 503 [] none else .response 200 [42] none,
         fun _ => false, fun _ => false⟩ 3 (some (.ok [1])) =
      ⟨.ok [42], 2 + 1, 2, List.replicate (2 + 1) (some [1])⟩ :=
  success_after_k_transient _ 3 (some (.ok [1])) (some [1]) rfl 2 (by decide)
    (by decide) rfl 200 [42] (by decide) (by decide)

/-- C3: if the first j attempts are transient failures without cancellation
and attempt j + 1 completes with a 4xx status, the call fails immediately
with the terminal error carrying the status and raw body, after exactly
j + 1 attempts — in particular a first-attempt 4xx (j = 0) gives exactly one
attempt for every MaxRetries ≥ 0, and no attempt ever follows a terminal
failure. -/
theorem terminal_stops_retries (env : CallEnv) (m : Int)
    (mi : Option (Except String Bytes)) (d : Option Bytes)
    (hm : marshalOf mi = .ok d) (j : Nat) (hj : (j : Int) ≤ m)
    (hcont : ∀ i, i < j → (stepAt env i).isCont = true ∧ env.ctxFiresDuringWait i = false)
    (hfire : env.ctxFiresDuringWait j = false)
    (s : Int) (body : Bytes) (hev : env.exec j = .response s body none)
    (hs : 400 ≤ s ∧ s < 500) :
    doRequestWithContext env m mi =
      ⟨.error (.apiStatus s body), j + 1, j, List.replicate (j + 1) d⟩ := by
  have hstep : stepAt env j = .ret (.error (.apiStatus s body)) := by
    simp only [stepAt, hev, executeRequest, handleExec]
    rw [if_neg (by omega), if_pos hs]
  rw [doRequest_ok env m mi d hm,
    show (m + 1).toNat = j + ((m + 1).toNat - j - 1) + 1 from by omega]
  rw [loopFrom_ret env m d j 0 ((m + 1).toNat - j - 1) none 0 0 []
      (.error (.apiStatus s body))
    (by intro i hi; rw [Nat.zero_add]; exact hcont i hi)
    (by rw [Nat.zero_add]; exact hfire)
    (by rw [Nat.zero_add]; exact hstep)]
  simp

/-- Witness for C3: a 404 on the first attempt gives exactly one attempt and
the terminal error with status 404 and the raw body, despite MaxRetries = 3. -/
theorem terminal_stops_retries_witness :
    doRequestWithContext
        ⟨fun _ => .response 404 [9] none, fun _ => false, fun _ => false⟩ 3 none =
      ⟨.error (.apiStatus 404 [9]), 0 + 1, 0, List.replicate (0 + 1) none⟩ :=
  terminal_stops_retries _ 3 none none rfl 0 (by decide) (by decide) rfl 404 [9]
    rfl (by decide)

/-- C4: when the transport completes, the executor returns the entire body
it read, and the loop classifies solely by the numeric status code,
independently of the context flag: [200,300) is a success carrying the body,
[400,500) is a terminal failure carrying status and body, and every other
status is a transient failure. -/
theorem classify_by_status_only (s : Int) (body : Bytes) (cb : Bool) :
    executeRequest (.response s body none) = ⟨body, s, none⟩ ∧
    (200 ≤ s ∧ s < 300 →
      handleExec cb (executeRequest (.response s body none)) = .ret (.ok body)) ∧
    (400 ≤ s ∧ s < 500 →
      handleExec cb (executeRequest (.response s body none)) =
        .ret (.error (.apiStatus s body))) ∧
    (¬(200 ≤ s ∧ s < 300) → ¬(400 ≤ s ∧ s < 500) →
      handleExec cb (executeRequest (.response s body none)) =
        .cont (.apiStatus s body)) := by
  refine ⟨rfl, ?_, ?_, ?_⟩
  · intro hs
    simp only [executeRequest, handleExec]
    rw [if_pos hs]
  · intro hs
    simp only [executeRequest, handleExec]
    rw [if_neg (by omega), if_pos hs]
  · intro h2 h4
    simp only [executeRequest, handleExec]
    rw [if_neg h2, if_neg h4]

/-- Witness for C4: a 303 status is neither success nor terminal and is
classified transient. -/
theorem classify_by_status_only_witness :
    handleExec false (executeRequest (.response 303 [5] none)) =
      .cont (.apiStatus 303 [5]) :=
  (classify_by_status_only 303 [5] false).2.2.2 (by decide) (by decide)

/-- The backoff value equals base * (3/4 + r/2) for the capped base, and
lies in [3/4 * base, 5/4 * base], for any jitter fraction r in [0,1). -/
theorem backoff_formula (wmin wmax r : ℚ) (i : Nat)
    (h0 : 0 ≤ wmin) (h1 : 0 ≤ wmax) (hr0 : 0 ≤ r) (hr1 : r < 1) :
    calculateBackoff wmin wmax r i = min (wmin * 2 ^ (i - 1)) wmax * (3 / 4 + r / 2) ∧
    3 / 4 * min (wmin * 2 ^ (i - 1)) wmax ≤ calculateBackoff wmin wmax r i ∧
    calculateBackoff wmin wmax r i ≤ 5 / 4 * min (wmin * 2 ^ (i - 1)) wmax := by
  have hbnn : 0 ≤ min (wmin * 2 ^ (i - 1)) wmax :=
    le_min (by positivity) h1
  have hbeq : calculateBackoff wmin wmax r i
      = min (wmin * 2 ^ (i - 1)) wmax * (3 / 4 + r / 2) := by
    unfold calculateBackoff
    dsimp only
    rcases le_or_lt (wmin * 2 ^ (i - 1)) wmax with h | h
    · rw [if_neg (not_lt.mpr h), min_eq_left h]
      ring
    · rw [if_pos h, min_eq_right h.le]
      ring
  refine ⟨hbeq, ?_, ?_⟩
  · rw [hbeq]
    nlinarith [mul_nonneg hbnn hr0]
  · rw [hbeq]
    nlinarith [mul_nonneg hbnn hr0, mul_le_mul_of_nonneg_left hr1.le hbnn]

/-- C5: for every retry attempt index i ≥ 1 and every jitter fraction drawn
by the random helper from a word u < 2^64, calculateBackoff equals
base * (0.75 + 0.5 * r) for base = min(RetryWaitMin * 2^(i-1), RetryWaitMax),
and so lies within [0.75 * base, 1.25 * base]. -/
theorem backoff_within_jitter_bounds (wmin wmax : ℚ) (u i : Nat) (hi : 1 ≤ i)
    (h0 : 0 ≤ wmin) (h1 : 0 ≤ wmax) (hu : u < 2 ^ 64) :
    calculateBackoff wmin wmax (secureRandomFloat u) i
        = min (wmin * 2 ^ (i - 1)) wmax * (3 / 4 + secureRandomFloat u / 2) ∧
      3 / 4 * min (wmin * 2 ^ (i - 1)) wmax
        ≤ calculateBackoff wmin wmax (secureRandomFloat u) i ∧
      calculateBackoff wmin wmax (secureRandomFloat u) i
        ≤ 5 / 4 * min (wmin * 2 ^ (i - 1)) wmax := by
  have hr0 : 0 ≤ secureRandomFloat u := by
    unfold secureRandomFloat
    positivity
  have hr1 : secureRandomFloat u < 1 := by
    unfold secureRandomFloat
    rw [div_lt_one (by positivity)]
    exact_mod_cast hu
  exact backoff_formula wmin wmax (secureRandomFloat u) i h0 h1 hr0 hr1

/-- Witness for C5: the first retry with RetryWaitMin = 1s (in nanoseconds),
RetryWaitMax = 30s and the zero random word. -/
theorem backoff_within_jitter_bounds_witness :
    calculateBackoff 1000000000 30000000000 (secureRandomFloat 0) 1
        = min ((1000000000 : ℚ) * 2 ^ (1 - 1)) 30000000000
            * (3 / 4 + secureRandomFloat 0 / 2) ∧
      3 / 4 * min ((1000000000 : ℚ) * 2 ^ (1 - 1)) 30000000000
        ≤ calculateBackoff 1000000000 30000000000 (secureRandomFloat 0) 1 ∧
      calculateBackoff 1000000000 30000000000 (secureRandomFloat 0) 1
        ≤ 5 / 4 * min ((1000000000 : ℚ) * 2 ^ (1 - 1)) 30000000000 :=
  backoff_within_jitter_bounds 1000000000 30000000000 0 1 (by decide)
    (by norm_num) (by norm_num) (by norm_num)

/-- C6: after any run of transient attempts, if ctx.Done fires during the
backoff wait before attempt i the call returns the cancellation error with
only the i earlier attempts performed and only the i - 1 earlier waits
completed; and if attempt i fails at the transport level while ctx.Err() is
set, the call returns the cancellation error right after that attempt with
no further waiting — in both cases reporting cancellation, not a transient
or retry-exhaustion error. -/
theorem cancellation_short_circuits (env : CallEnv) (m : Int)
    (mi : Option (Except String Bytes)) (d : Option Bytes)
    (hm : marshalOf mi = .ok d) :
    (∀ i : Nat, (i : Int) ≤ m → 0 < i →
      (∀ j, j < i → (stepAt env j).isCont = true ∧ env.ctxFiresDuringWait j = false) →
      env.ctxFiresDuringWait i = true →
      doRequestWithContext env m mi =
        ⟨.error .ctxCanceled, i, i - 1, List.replicate i d⟩) ∧
    (∀ i : Nat, (i : Int) ≤ m →
      (∀ j, j < i → (stepAt env j).isCont = true ∧ env.ctxFiresDuringWait j = false) →
      env.ctxFiresDuringWait i = false →
      (executeRequest (env.exec i)).err.isSome = true →
      env.ctxErrAfter i = true →
      doRequestWithContext env m mi =
        ⟨.error .ctxCanceled, i + 1, i, List.replicate (i + 1) d⟩) := by
  constructor
  · intro i hi hpos hcont hfireAt
    rw [doRequest_ok env m mi d hm,
      show (m + 1).toNat = i + ((m + 1).toNat - i - 1) + 1 from by omega]
    rw [loopFrom_fire env m d i 0 ((m + 1).toNat - i - 1) none 0 0 []
      (by intro j hj; rw [Nat.zero_add]; exact hcont j hj)
      (by omega)
      (by rw [Nat.zero_add]; exact hfireAt)]
    simp
  · intro i hi hcont hfireAt herr hctx
    have hstep : stepAt env i = .ret (.error .ctxCanceled) := by
      rcases ho : (executeRequest (env.exec i)).err with _ | msg
      · rw [ho] at herr
        simp at herr
      · unfold stepAt handleExec
        rw [ho, hctx]
        simp
    rw [doRequest_ok env m mi d hm,
      show (m + 1).toNat = i + ((m + 1).toNat - i - 1) + 1 from by omega]
    rw [loopFrom_ret env m d i 0 ((m + 1).toNat - i - 1) none 0 0 []
        (.error .ctxCanceled)
      (by intro j hj; rw [Nat.zero_add]; exact hcont j hj)
      (by rw [Nat.zero_add]; exact hfireAt)
      (by rw [Nat.zero_add]; exact hstep)]
    simp

/-- Witness for C6: one 503 attempt, then ctx.Done fires during the backoff
wait before attempt 1 — the call reports cancellation after a single
attempt and no completed wait. -/
theorem cancellation_short_circuits_witness :
    doRequestWithContext
        ⟨fun _ => .response 503 [] none, fun i => i == 1, fun _ => false⟩ 3 none =
      ⟨.error .ctxCanceled, 1, 1 - 1, List.replicate 1 none⟩ :=
  (cancellation_short_circuits
      ⟨fun _ => .response 503 [] none, fun i => i == 1, fun _ => false⟩ 3 none none
      rfl).1 1 (by decide) (by decide) (by decide) (by decide)

/-- C7: a marshal failure returns the marshal error at once with zero
attempts and zero waits, and on marshal success every attempt is handed
exactly the bytes serialized once before the loop. -/
theorem body_serialized_once (env : CallEnv) (m : Int) :
    (∀ msg, doRequestWithContext env m (some (.error msg)) =
      ⟨.error (.marshalError ("failed to marshal request body: " ++ msg)), 0, 0, []⟩) ∧
    (∀ data : Bytes, ∀ x ∈ (doRequestWithContext env m (some (.ok data))).sent,
      x = some data) := by
  constructor
  · intro msg
    rfl
  · intro data x hx
    rw [doRequest_ok env m (some (.ok data)) (some data) rfl] at hx
    rcases loopFrom_sent env m (some data) (m + 1).toNat 0 none 0 0 [] x hx with h | h
    · simp at h
    · exact h

/-- Witness for C7: with MaxRetries = 0 and a 200 response, the single
attempt is handed the serialized bytes. -/
theorem body_serialized_once_witness : (some [1] : Option Bytes) = some [1] :=
  (body_serialized_once
      ⟨fun _ => .response 200 [] none, fun _ => false, fun _ => false⟩ 0).2 [1]
    (some [1]) (by decide)

/-- C9: an attempt whose transport completes with a 2xx status but whose
body read fails mid-stream, with ctx.Err() clear, is classified as a
transient failure (recorded and retried), never as a success. -/
theorem partial_read_is_transient (env : CallEnv) (i : Nat) (s : Int)
    (pb : Bytes) (msg : String)
    (hev : env.exec i = .response s pb (some msg))
    (hctx : env.ctxErrAfter i = false)
    (hs : 200 ≤ s ∧ s < 300) :
    stepAt env i = .cont (.transport ("failed to read response body: " ++ msg)) ∧
    (stepAt env i).isCont = true ∧
    ∀ b : Bytes, stepAt env i ≠ .ret (.ok b) := by
  have h : stepAt env i
      = .cont (.transport ("failed to read response body: " ++ msg)) := by
    unfold stepAt
    rw [hev]
    unfold executeRequest handleExec
    rw [hctx]
    simp
  refine ⟨h, by rw [h]; rfl, ?_⟩
  intro b hb
  rw [h] at hb
  exact StepOutcome.noConfusion hb

/-- Witness for C9: a 200 response whose body read fails mid-stream is a
transient failure. -/
theorem partial_read_is_transient_witness :
    stepAt ⟨fun _ => .response 200 [1] (some "unexpected EOF"), fun _ => false,
        fun _ => false⟩ 0 =
      .cont (.transport ("failed to read response body: " ++ "unexpected EOF")) :=
  (partial_read_is_transient _ 0 200 [1] "unexpected EOF" rfl rfl (by decide)).1

/-- C10: with a negative MaxRetries the loop body never runs: zero attempts,
zero waits, and the retry-exhausted-style error whose wrapped cause is
nil. -/
theorem negative_retries_zero_attempts (env : CallEnv) (m : Int)
    (mi : Option (Except String Bytes)) (d : Option Bytes)
    (hm : marshalOf mi = .ok d) (hneg : m < 0) :
    doRequestWithContext env m mi =
      ⟨.error (.retriesExhausted m none), 0, 0, []⟩ := by
  rw [doRequest_ok env m mi d hm, show (m + 1).toNat = 0 from by omega]
  rfl

/-- Witness for C10: MaxRetries = -1 yields zero attempts and the exhausted
error wrapping nothing. -/
theorem negative_retries_zero_attempts_witness :
    doRequestWithContext
        ⟨fun _ => .response 200 [] none, fun _ => false, fun _ => false⟩ (-1) none =
      ⟨.error (.retriesExhausted (-1) none), 0, 0, []⟩ :=
  negative_retries_zero_attempts _ (-1) none none rfl (by decide)

/-- C8 counterexample: when the `data` field equals the empty-object
sentinel, its second-pass decode is NOT skipped — the parsed data field
comes out as the decoded empty map, not nil — while the same sentinel in
`conditional_data` is skipped and left nil. -/
theorem data_sentinel_not_skipped :
    parseRecordNested goUnmarshalEmptyObj ⟨emptyJSON, emptyJSON⟩ =
        .ok ⟨emptyJSON, emptyJSON, some [], none⟩ ∧
      (some ([] : JMap) ≠ (none : Option JMap)) := by
  constructor
  · rfl
  · intro h
    exact Option.noConfusion h

/-- C8 (amended): the raw strings are carried through unchanged; the
sentinel skip applies only to `conditional_data` — an empty or sentinel
`conditional_data` is left nil, an empty `data` is left nil, but a non-empty
`data` (the sentinel included) always goes through the second-pass decode
and receives whatever the unmarshaller produces. -/
theorem nested_second_pass_fields (u : String → Except String (Option JMap))
    (r : RecordRaw) (p : RecordParsed)
    (h : parseRecordNested u r = .ok p) :
    p.dataRaw = r.dataRaw ∧ p.conditionalDataRaw = r.conditionalDataRaw ∧
    (r.conditionalDataRaw = emptyJSON → p.conditionalData = none) ∧
    (r.conditionalDataRaw = "" → p.conditionalData = none) ∧
    (r.dataRaw = "" → p.data = none) ∧
    (r.dataRaw ≠ "" → u r.dataRaw = .ok p.data) := by
  unfold parseRecordNested at h
  rcases hdf : parseDataField u r.dataRaw with e | dataField <;> rw [hdf] at h
  · exact Except.noConfusion h
  rcases hcf : parseConditionalDataField u r.conditionalDataRaw with e | condField <;>
    rw [hcf] at h
  · exact Except.noConfusion h
  have hp : p = ⟨r.dataRaw, r.conditionalDataRaw, dataField, condField⟩ :=
    (Except.ok.injEq _ _).mp h.symm
  subst hp
  refine ⟨rfl, rfl, ?_, ?_, ?_, ?_⟩
  · intro hsent
    unfold parseConditionalDataField at hcf
    rw [if_neg (by simp [hsent])] at hcf
    exact ((Except.ok.injEq _ _).mp hcf).symm
  · intro hempty
    unfold parseConditionalDataField at hcf
    rw [if_neg (by simp [hempty])] at hcf
    exact ((Except.ok.injEq _ _).mp hcf).symm
  · intro hempty
    unfold parseDataField at hdf
    rw [if_neg (by simp [hempty])] at hdf
    exact ((Except.ok.injEq _ _).mp hdf).symm
  · intro hne
    unfold parseDataField at hdf
    rw [if_pos hne] at hdf
    rcases hu : u r.dataRaw with e | v <;> rw [hu] at hdf
    · exact Except.noConfusion hdf
    · rw [(Except.ok.injEq _ _).mp hdf]

/-- Witness for C8 (amended): on a record whose both raw fields are the
sentinel, conditional_data is left nil. -/
theorem nested_second_pass_fields_witness :
    (⟨emptyJSON, emptyJSON, some [], none⟩ : RecordParsed).conditionalData = none :=
  (nested_second_pass_fields goUnmarshalEmptyObj ⟨emptyJSON, emptyJSON⟩
      ⟨emptyJSON, emptyJSON, some [], none⟩ rfl).2.2.1 rfl

end SnitchDNS
